import Mathlib

/-!
Verification of the `nameof` crate (src/src/lib.rs): a shallow embedding of
the three exported Rust macros `name_of!`, `name_of_type!` and `tag_of!`.

The crate is purely compile-time: each macro arm emits
(1) a dead "validation fragment" that must type-check against the Rust
    compiler's symbol tables (so a bad reference aborts compilation), and
(2) a string result: `stringify!` of the requested token(s) for all arms
    except the value-bearing tuple-variant arm of `tag_of!`, which composes
    its string at runtime with `std::format!`.

The embedding models the relevant slice of the Rust compilation context as an
explicit environment (in-scope bindings, nominal type definitions with their
visible fields and associated constants, enum definitions with the kind of
each variant).  Each macro becomes a total function from the environment and
the parsed macro input to `Option` of the rendered string: `none` means the
expansion's validation fragment (or the macro match itself) fails to compile,
`some` means the expansion compiles and yields that string.

The semantics of each validation fragment is transcribed from the Rust rules
the fragment exercises (lib.rs line numbers refer to src/src/lib.rs):

* `name_of!($n:ident)`        (lib.rs 85-90):  `let _ = &$n;` in a closure
  compiles iff `$n` names any in-scope binding or function; both resolve
  identically as value paths.
* `name_of!(type $t:ty)`      (lib.rs 93-95):  delegates to `name_of_type!`.
* `name_of_type!($t:ty)`      (lib.rs 136-141): `let _: $t;` compiles iff the
  type expression resolves (modelled as membership of its spelling in the
  environment's resolvable type expressions).
* `name_of!($n in $t)`        (lib.rs 98-103): `|f: $t| { let _ = &f.$n; }`
  compiles iff `$t` resolves and `$n` is a visible field of it.
* `name_of!(const $n in $t)`  (lib.rs 106-111): `<$t>::$n` compiles iff `$t`
  resolves and `$n` is a visible associated constant of it; the constant is
  referenced, never evaluated.
* `tag_of!(E::V)`             (lib.rs 178-183): `let _ = E::V;` is a value
  path: it compiles for a unit variant (the value) and for a tuple variant
  (the constructor function), and is rejected for a struct variant
  (rustc error E0533 "expected value, found struct variant").
* `tag_of!(E::V(..))`         (lib.rs 186-195): the pattern `E::V(..)` is a
  tuple-struct pattern: it compiles iff `V` is a tuple variant of `E`
  (rustc error E0532 otherwise).
* `tag_of!(E::V { .. })`      (lib.rs 211-220): the pattern with braces and
  only a rest pattern is a struct pattern, which rustc accepts against any
  variant kind - struct, tuple (E0769 only fires for named fields, not for
  `..`) and unit - so it compiles iff `V` is any existing variant of `E`,
  exactly as the in-source comment says ("verify the variant exists").
* `tag_of!(E::V(v1, ...))`    (lib.rs 198-208): `let _ = E::V(v1, ...);`
  compiles iff `V` is a tuple variant and the supplied expressions match the
  declared fields positionally in count and type (types modelled nominally
  by spelling); the result is composed at runtime from the arguments'
  `Debug` renderings, joined with ", " inside `format!("{}({})", ...)`.
-/

namespace Nameof

/-- Kind of an in-scope value declaration: a variable binding or a function.
`name_of!($n:ident)` must accept both through the same rule. -/
inductive DeclKind where
  | binding
  | function
deriving DecidableEq, Repr

/-- A nominal type definition visible at the expansion site, keyed by the
spelling of the type expression that resolves to it (generic arguments
included, as in the crate's own tests, e.g. "TestGenericStruct<i32>").
`fields` are its visible fields, `assocConsts` its visible associated
constants. -/
structure TypeDef where
  spelling : String
  fields : List String
  assocConsts : List String
deriving DecidableEq, Repr

/-- The kind of an enum variant: unit, tuple (with the spellings of its
positional field types), or struct-like (with its field names). -/
inductive VariantKind where
  | unit
  | tuple (fieldTys : List String)
  | structLike (fieldNames : List String)
deriving DecidableEq, Repr

/-- An enum definition: its name and its variants, each with a kind. -/
structure EnumDef where
  name : String
  variants : List (String × VariantKind)
deriving DecidableEq, Repr

/-- The compilation context a macro expansion is checked against: the
in-scope value declarations, the resolvable nominal types, and the enum
definitions. -/
structure Env where
  scope : List (String × DeclKind)
  types : List TypeDef
  enums : List EnumDef
deriving Repr

/-- Resolve a type expression (by its spelling) in the context. -/
def findType : List TypeDef → String → Option TypeDef
  | [], _ => none
  | td :: rest, s => if td.spelling = s then some td else findType rest s

/-- Resolve an enum name in the context. -/
def findEnum : List EnumDef → String → Option EnumDef
  | [], _ => none
  | ed :: rest, s => if ed.name = s then some ed else findEnum rest s

/-- Resolve a variant name inside an enum definition to its kind. -/
def findVariant : List (String × VariantKind) → String → Option VariantKind
  | [], _ => none
  | (v, k) :: rest, s => if v = s then some k else findVariant rest s

/-- Whether an identifier names any in-scope declaration, of either kind:
the validation fragment `let _ = &$n;` resolves `$n` as a value path and
does not distinguish bindings from functions. -/
def inScope : List (String × DeclKind) → String → Bool
  | [], _ => false
  | (n, _) :: rest, s => if n = s then true else inScope rest s

/-- A value expression supplied to the value-bearing tuple-variant arm of
`tag_of!`: its Rust type (nominally, by spelling, used by the validation
fragment `let _ = E::V(...)`) and its `Debug` rendering
`format!("{:?}", value)` (used by the runtime string composition). -/
structure Value where
  ty : String
  debug : String
deriving DecidableEq, Repr

/-- The parsed input shapes of `name_of!`, one per macro arm
(lib.rs 83-112), in the arm order of the source. -/
inductive NameOfArg where
  | ident (n : String)
  | typeForm (t : String)
  | fieldIn (n : String) (t : String)
  | constIn (n : String) (t : String)
deriving DecidableEq, Repr

/-- The parsed input shapes of `tag_of!`, one per macro arm
(lib.rs 176-221), in the arm order of the source. -/
inductive TagOfArg where
  | unitForm (e v : String)
  | wildTuple (e v : String)
  | withValues (e v : String) (args : List Value)
  | wildStruct (e v : String)
deriving DecidableEq, Repr

/-- The result string of a `tag_of!` expansion, distinguishing a fixed
compile-time literal (`stringify!`) from a string composed at runtime by
`std::format!`. -/
inductive TagString where
  | literal (s : String)
  | runtime (s : String)
deriving DecidableEq, Repr

/-- Expansion of `name_of_type!($t:ty)` (lib.rs 134-142): the validation
fragment `let _: $t;` compiles iff the type expression resolves; the result
is `stringify!($t)`, the type expression's own spelling. -/
def name_of_type (env : Env) (t : String) : Option String :=
  match findType env.types t with
  | some _ => some t
  | none => none

/-- Expansion of `name_of!` (lib.rs 83-112), one case per macro arm.
The `typeForm` arm delegates to `name_of_type` exactly as the source does
(`$crate::name_of_type!($t)`, lib.rs 93-95). -/
def name_of (env : Env) : NameOfArg → Option String
  | .ident n =>
    if inScope env.scope n then some n else none
  | .typeForm t =>
    name_of_type env t
  | .fieldIn n t =>
    match findType env.types t with
    | some td => if n ∈ td.fields then some n else none
    | none => none
  | .constIn n t =>
    match findType env.types t with
    | some td => if n ∈ td.assocConsts then some n else none
    | none => none

/-- The runtime string composed by the value-bearing tuple-variant arm of
`tag_of!` (lib.rs 202-207): `format!("{}({})", variant, debugs.join(", "))`
where each element of `debugs` is `format!("{:?}", value)`. -/
def renderTagValues (variant : String) (args : List Value) : String :=
  variant ++ "(" ++ String.intercalate ", " (args.map Value.debug) ++ ")"

/-- Expansion of `tag_of!` (lib.rs 176-221), one case per macro arm; the
per-arm validation semantics is spelled out in the module comment. The
value-bearing arm's matcher `$($value:expr),+` requires at least one
expression, so an empty argument list is a macro match failure. -/
def tag_of (env : Env) : TagOfArg → Option TagString
  | .unitForm e v =>
    match findEnum env.enums e with
    | none => none
    | some ed =>
      match findVariant ed.variants v with
      | some .unit => some (.literal v)
      | some (.tuple _) => some (.literal v)
      | some (.structLike _) => none
      | none => none
  | .wildTuple e v =>
    match findEnum env.enums e with
    | none => none
    | some ed =>
      match findVariant ed.variants v with
      | some (.tuple _) => some (.literal v)
      | some _ => none
      | none => none
  | .withValues e v args =>
    match args with
    | [] => none
    | _ :: _ =>
      match findEnum env.enums e with
      | none => none
      | some ed =>
        match findVariant ed.variants v with
        | some (.tuple ts) =>
          if args.map Value.ty = ts then some (.runtime (renderTagValues v args))
          else none
        | some _ => none
        | none => none
  | .wildStruct e v =>
    match findEnum env.enums e with
    | none => none
    | some ed =>
      match findVariant ed.variants v with
      | some _ => some (.literal v)
      | none => none

/-- A concrete type definition mirroring `TestStruct` from the crate's own
test module (lib.rs 235-241). -/
def testStruct : TypeDef :=
  { spelling := "TestStruct"
    fields := ["test_field"]
    assocConsts := ["TEST_CONST"] }

/-- A concrete generic type definition mirroring the crate's generic-struct
tests (lib.rs 243-245). -/
def genericStruct : TypeDef :=
  { spelling := "GenericStruct<String>"
    fields := ["test_field_t"]
    assocConsts := [] }

/-- A concrete enum mirroring the `Color` example of the `tag_of!` doc
comment (lib.rs 160-167): a unit variant, a tuple variant and a struct
variant. -/
def colorEnum : EnumDef :=
  { name := "Color"
    variants :=
      [("Red", VariantKind.unit),
       ("Rgb", VariantKind.tuple ["u8", "u8", "u8"]),
       ("Hsl", VariantKind.structLike ["h", "s", "l"])] }

/-- A concrete compilation context used to instantiate the theorems. -/
def testEnv : Env :=
  { scope := [("text", DeclKind.binding), ("greet", DeclKind.function)]
    types := [testStruct, genericStruct]
    enums := [colorEnum] }

/-- An identifier is `inScope` exactly when some declaration of some kind
carries it. -/
theorem inScope_iff (s : List (String × DeclKind)) (n : String) :
    inScope s n = true ↔ ∃ k, (n, k) ∈ s := by
  induction s with
  | nil => simp [inScope]
  | cons hd tl ih =>
    obtain ⟨m, k⟩ := hd
    by_cases h : m = n
    · subst h
      simp [inScope]
    · simp only [inScope, if_neg h, ih]
      constructor
      · rintro ⟨k', hk'⟩
        exact ⟨k', List.mem_cons_of_mem _ hk'⟩
      · rintro ⟨k', hk'⟩
        rcases List.mem_cons.mp hk' with heq | hmem
        · cases heq
          exact absurd rfl h
        · exact ⟨k', hmem⟩

/-- C10: for every unit variant `V` of enum `E`, `tag_of!(E::V)` yields
exactly the literal string "V" - the bare variant identifier, with no enum
qualification and no argument suffix. -/
theorem tag_of_unit_variant_renders_bare (env : Env) (e v : String) (ed : EnumDef)
    (he : findEnum env.enums e = some ed)
    (hv : findVariant ed.variants v = some VariantKind.unit) :
    tag_of env (TagOfArg.unitForm e v) = some (TagString.literal v) := by
  simp [tag_of, he, hv]

theorem tag_of_unit_variant_renders_bare_witness :
    tag_of testEnv (TagOfArg.unitForm "Color" "Red") = some (TagString.literal "Red") :=
  tag_of_unit_variant_renders_bare testEnv "Color" "Red" colorEnum rfl rfl

/-- C6: the unit-variant shape `tag_of!(E::V)` also compiles when `V` is a
tuple variant - its validation fragment `let _ = E::V;` resolves the path to
the variant's constructor function - and yields the literal string "V";
only a struct variant is rejected by this shape (rustc error E0533). -/
theorem tag_of_unit_form_tuple_variant (env : Env) (e v : String) (ed : EnumDef)
    (he : findEnum env.enums e = some ed) :
    (∀ ts, findVariant ed.variants v = some (VariantKind.tuple ts) →
      tag_of env (TagOfArg.unitForm e v) = some (TagString.literal v)) ∧
    (∀ fs, findVariant ed.variants v = some (VariantKind.structLike fs) →
      tag_of env (TagOfArg.unitForm e v) = none) := by
  constructor
  · intro ts hv
    simp [tag_of, he, hv]
  · intro fs hv
    simp [tag_of, he, hv]

theorem tag_of_unit_form_tuple_variant_witness :
    tag_of testEnv (TagOfArg.unitForm "Color" "Rgb") = some (TagString.literal "Rgb") :=
  (tag_of_unit_form_tuple_variant testEnv "Color" "Rgb" colorEnum rfl).1
    ["u8", "u8", "u8"] rfl

/-- C4: for every tuple variant matched with the wildcard form
`tag_of!(E::V(..))` and every struct variant matched with the wildcard form
`tag_of!(E::V \x7b .. \x7d)`, the expansion yields exactly the compile-time
literal "V", regardless of the variant's field-type list or field names
(both are universally quantified), with no argument or field information. -/
theorem tag_of_wildcard_renders_bare (env : Env) (e v : String) (ed : EnumDef)
    (he : findEnum env.enums e = some ed) :
    (∀ ts, findVariant ed.variants v = some (VariantKind.tuple ts) →
      tag_of env (TagOfArg.wildTuple e v) = some (TagString.literal v)) ∧
    (∀ fs, findVariant ed.variants v = some (VariantKind.structLike fs) →
      tag_of env (TagOfArg.wildStruct e v) = some (TagString.literal v)) := by
  constructor
  · intro ts hv
    simp [tag_of, he, hv]
  · intro fs hv
    simp [tag_of, he, hv]

theorem tag_of_wildcard_renders_bare_witness :
    tag_of testEnv (TagOfArg.wildTuple "Color" "Rgb") = some (TagString.literal "Rgb") ∧
    tag_of testEnv (TagOfArg.wildStruct "Color" "Hsl") = some (TagString.literal "Hsl") :=
  ⟨(tag_of_wildcard_renders_bare testEnv "Color" "Rgb" colorEnum rfl).1
      ["u8", "u8", "u8"] rfl,
   (tag_of_wildcard_renders_bare testEnv "Color" "Hsl" colorEnum rfl).2
      ["h", "s", "l"] rfl⟩

/-- C1, counterexample: the claim says the wildcard-struct form
`tag_of!(E::V \x7b .. \x7d)` compiles only if `V` is a struct variant of `E`,
a wrong-kind use being a compile-time error.  But `Rgb` is a tuple variant
of `Color`, and `tag_of!(Color::Rgb \x7b .. \x7d)` nevertheless compiles and
yields "Rgb": a Rust struct pattern whose interior is only the rest pattern
`..` is accepted against a variant of any kind, so the emitted fragment only
proves existence, not struct-kind. -/
theorem tag_of_wildcard_struct_kind_counterexample :
    findVariant colorEnum.variants "Rgb" = some (VariantKind.tuple ["u8", "u8", "u8"]) ∧
    tag_of testEnv (TagOfArg.wildStruct "Color" "Rgb") = some (TagString.literal "Rgb") := by
  constructor
  · rfl
  · rfl

/-- C1, amended: the wildcard-tuple form `tag_of!(E::V(..))` compiles iff
`V` is an existing tuple variant of `E` (wildcard-tuple form against a
struct or unit variant is a compile-time error, rustc E0532), while the
wildcard-struct form `tag_of!(E::V \x7b .. \x7d)` compiles iff `V` is an
existing variant of `E` of any kind: it proves the variant's existence but
not that it is a struct variant. -/
theorem tag_of_wildcard_kind_spec (env : Env) (e v : String) (ed : EnumDef)
    (he : findEnum env.enums e = some ed) :
    ((tag_of env (TagOfArg.wildTuple e v)).isSome ↔
      ∃ ts, findVariant ed.variants v = some (VariantKind.tuple ts)) ∧
    ((tag_of env (TagOfArg.wildStruct e v)).isSome ↔
      (findVariant ed.variants v).isSome) := by
  constructor
  · cases hfv : findVariant ed.variants v with
    | none => simp [tag_of, he, hfv]
    | some k => cases k <;> simp [tag_of, he, hfv]
  · cases hfv : findVariant ed.variants v with
    | none => simp [tag_of, he, hfv]
    | some k => simp [tag_of, he, hfv]

theorem tag_of_wildcard_kind_spec_witness :
    ((tag_of testEnv (TagOfArg.wildTuple "Color" "Hsl")).isSome ↔
      ∃ ts, findVariant colorEnum.variants "Hsl" = some (VariantKind.tuple ts)) ∧
    ((tag_of testEnv (TagOfArg.wildStruct "Color" "Hsl")).isSome ↔
      (findVariant colorEnum.variants "Hsl").isSome) :=
  tag_of_wildcard_kind_spec testEnv "Color" "Hsl" colorEnum rfl

/-- C2: for a tuple variant `V` whose declared field types the supplied
argument expressions match positionally, `tag_of!(E::V(a1, ..., an))`
evaluates to the runtime-composed string "V(d1, ..., dn)", where each `di`
is the argument's debug rendering and the renderings are joined with the
separator ", "; the result is tagged `TagString.runtime`, not a fixed
compile-time literal. -/
theorem tag_of_values_render (env : Env) (e v : String) (ed : EnumDef)
    (ts : List String) (args : List Value)
    (he : findEnum env.enums e = some ed)
    (hv : findVariant ed.variants v = some (VariantKind.tuple ts))
    (hne : args ≠ [])
    (hty : args.map Value.ty = ts) :
    tag_of env (TagOfArg.withValues e v args) =
      some (TagString.runtime
        (v ++ "(" ++ String.intercalate ", " (args.map Value.debug) ++ ")")) := by
  cases args with
  | nil => exact absurd rfl hne
  | cons a rest =>
    simp only [tag_of, he, hv]
    rw [if_pos hty]
    rfl

theorem tag_of_values_render_witness :
    tag_of testEnv (TagOfArg.withValues "Color" "Rgb"
        [⟨"u8", "255"⟩, ⟨"u8", "128"⟩, ⟨"u8", "0"⟩]) =
      some (TagString.runtime "Rgb(255, 128, 0)") :=
  tag_of_values_render testEnv "Color" "Rgb" colorEnum ["u8", "u8", "u8"]
    [⟨"u8", "255"⟩, ⟨"u8", "128"⟩, ⟨"u8", "0"⟩]
    rfl rfl (List.cons_ne_nil _ _) rfl

/-- C5: for a tuple variant `V` with declared field types `ts`, supplying a
number of value expressions different from the declared arity makes
`tag_of!(E::V(a1, ..., ak))` fail to compile: the validation fragment
applies the constructor to exactly the supplied expressions, so the arity
mismatch is fatal and no string is produced. -/
theorem tag_of_values_arity_mismatch (env : Env) (e v : String) (ed : EnumDef)
    (ts : List String) (args : List Value)
    (he : findEnum env.enums e = some ed)
    (hv : findVariant ed.variants v = some (VariantKind.tuple ts))
    (hlen : args.length ≠ ts.length) :
    tag_of env (TagOfArg.withValues e v args) = none := by
  cases args with
  | nil => simp [tag_of]
  | cons a rest =>
    have hne : (a :: rest).map Value.ty ≠ ts := by
      intro hcontra
      apply hlen
      simpa using congrArg List.length hcontra
    simp only [tag_of, he, hv]
    rw [if_neg hne]

theorem tag_of_values_arity_mismatch_witness :
    tag_of testEnv (TagOfArg.withValues "Color" "Rgb"
        [⟨"u8", "255"⟩, ⟨"u8", "128"⟩]) = none :=
  tag_of_values_arity_mismatch testEnv "Color" "Rgb" colorEnum ["u8", "u8", "u8"]
    [⟨"u8", "255"⟩, ⟨"u8", "128"⟩] rfl rfl (by decide)

/-- C3: `name_of!(type T)` delegates to `name_of_type!(T)`, so the two
forms yield equal results for every type expression in every context, and
whenever the expansion compiles the resulting string is exactly the type
expression's own spelling, generic arguments preserved verbatim. -/
theorem name_of_type_forms_agree (env : Env) (t : String) :
    name_of env (NameOfArg.typeForm t) = name_of_type env t ∧
    (∀ s, name_of_type env t = some s → s = t) := by
  refine ⟨rfl, ?_⟩
  intro s hs
  cases h : findType env.types t with
  | none => simp [name_of_type, h] at hs
  | some td =>
    simp [name_of_type, h] at hs
    exact hs.symm

theorem name_of_type_forms_agree_witness :
    name_of testEnv (NameOfArg.typeForm "GenericStruct<String>") =
      name_of_type testEnv "GenericStruct<String>" ∧
    "GenericStruct<String>" = "GenericStruct<String>" :=
  ⟨(name_of_type_forms_agree testEnv "GenericStruct<String>").1,
   (name_of_type_forms_agree testEnv "GenericStruct<String>").2
      "GenericStruct<String>" rfl⟩

/-- C7: for every identifier declared in the enclosing scope - whether as a
variable binding or as a function, both accepted by the same rule with no
distinction - `name_of!(x)` yields the exact source spelling of `x`; if no
declaration of any kind carries the identifier, the expansion fails to
compile. -/
theorem name_of_ident_spec (env : Env) (n : String) :
    (∀ k, (n, k) ∈ env.scope → name_of env (NameOfArg.ident n) = some n) ∧
    ((∀ k, (n, k) ∉ env.scope) → name_of env (NameOfArg.ident n) = none) := by
  constructor
  · intro k hk
    have hin : inScope env.scope n = true := (inScope_iff _ _).mpr ⟨k, hk⟩
    simp [name_of, hin]
  · intro hnone
    have hout : inScope env.scope n = false := by
      rcases Bool.eq_false_or_eq_true (inScope env.scope n) with h | h
      · obtain ⟨k, hk⟩ := (inScope_iff _ _).mp h
        exact absurd hk (hnone k)
      · exact h
    simp [name_of, hout]

theorem name_of_ident_spec_witness :
    name_of testEnv (NameOfArg.ident "greet") = some "greet" :=
  (name_of_ident_spec testEnv "greet").1 DeclKind.function (by decide)

/-- C8: for every field `f` of a resolvable type `S`, `name_of!(f in S)`
yields exactly the bare string "f" - never qualified, never including the
owning type's name - and fails to compile if `f` is not a member of `S`. -/
theorem name_of_field_spec (env : Env) (f t : String) (td : TypeDef)
    (ht : findType env.types t = some td) :
    (f ∈ td.fields → name_of env (NameOfArg.fieldIn f t) = some f) ∧
    (f ∉ td.fields → name_of env (NameOfArg.fieldIn f t) = none) := by
  constructor
  · intro hf
    simp [name_of, ht, hf]
  · intro hf
    simp [name_of, ht, hf]

theorem name_of_field_spec_witness :
    name_of testEnv (NameOfArg.fieldIn "test_field" "TestStruct") = some "test_field" :=
  (name_of_field_spec testEnv "test_field" "TestStruct" testStruct rfl).1 (by decide)

/-- C9: for every associated constant `C` of a resolvable type `S`,
`name_of!(const C in S)` yields exactly the bare string "C"; the validation
fragment only references the constant through the type's associated-item
path, so only its existence is checked, and the expansion fails to compile
if `C` is not an associated constant of `S`. -/
theorem name_of_const_spec (env : Env) (c t : String) (td : TypeDef)
    (ht : findType env.types t = some td) :
    (c ∈ td.assocConsts → name_of env (NameOfArg.constIn c t) = some c) ∧
    (c ∉ td.assocConsts → name_of env (NameOfArg.constIn c t) = none) := by
  constructor
  · intro hc
    simp [name_of, ht, hc]
  · intro hc
    simp [name_of, ht, hc]

theorem name_of_const_spec_witness :
    name_of testEnv (NameOfArg.constIn "TEST_CONST" "TestStruct") = some "TEST_CONST" :=
  (name_of_const_spec testEnv "TEST_CONST" "TestStruct" testStruct rfl).1 (by decide)

end Nameof
